import Mathlib

/-!
Shallow embedding of `src/BuildTasks/PublishExtension/v5/vsixeditor.ts`.

JavaScript strings are modelled by Lean `String` (a wrapper around
`List Char`); `null`-able string fields are modelled by `Option String`
(`none` = `null`), and JavaScript truthiness of such a field (`null` and
`""` are falsy, every other string is truthy) by `isTruthy`.
Thrown `Error`s are modelled by `Except String`.
-/

/-- JavaScript truthiness of a nullable string: `null` and `""` are falsy. -/
def isTruthy : Option String → Bool
  | none => false
  | some v => v != ""

/-- Truthiness of `(x && x !== "default")` for a nullable string `x`, as it
appears in `hasEdits` and in the visibility / pricing guards. -/
def truthyAndNotDefault : Option String → Bool
  | none => false
  | some v => if v = "" then false else v != "default"

/-- Helper for `String.prototype.indexOf(pat) >= 0` on character lists:
`true` iff `pat` occurs as a contiguous substring. -/
def hasSubstrList (pat : List Char) : List Char → Bool
  | [] => pat.isEmpty
  | c :: cs => pat.isPrefixOf (c :: cs) || hasSubstrList pat cs

/-- JavaScript `s.indexOf(pat) >= 0`: substring containment test. -/
def strContains (s pat : String) : Bool :=
  hasSubstrList pat.data s.data

/-!
### ManifestData.createOutputFilePath (vsixeditor.ts lines 34-54)

The method computes `fileName` = the canonical name, then calls the inner
`updateFileName(fileName, 0)`, and immediately returns the outer `fileName`
constant.  The inner function only probes the output directory through the
asynchronous callback-style `fs.exists`; its reassignments happen to a local
parameter and its recursion runs after `createOutputFilePath` has already
returned, so the probe can never influence the returned value — it only
feeds `tl.debug`.  The output directory is modelled as the list `outDir` of
file names present in `outputPath`.
-/

/-- `iteration.toString().padStart(2, "0")`. -/
def pad2 (iteration : Nat) : String :=
  let s := toString iteration
  String.mk (List.replicate (2 - s.length) '0') ++ s

/-- The canonical output name `${publisher}.${id}-${version}.gen.vsix`. -/
def canonicalFileName (publisher idStr version : String) : String :=
  publisher ++ "." ++ idStr ++ "-" ++ version ++ ".gen.vsix"

/-- The generation-suffixed name `${publisher}.${id}-${version}.gen${gen}.vsix`
computed by `updateFileName` when `iteration > 0`. -/
def genFileName (publisher idStr version : String) (iteration : Nat) : String :=
  publisher ++ "." ++ idStr ++ "-" ++ version ++ ".gen" ++ pad2 iteration ++ ".vsix"

/-- The asynchronous collision probe `updateFileName`: starting from
`fileName` at `iteration`, replace the name by the generation-suffixed one
when `iteration > 0`, recurse while the name exists in `outDir` (the
`fs.exists` callback), and otherwise log the name (`tl.debug`).  `fuel`
bounds the recursion; the returned value is the name that would be logged.
This models only the debug logging - the probe has no other effect. -/
def updateFileName (publisher idStr version : String) (outDir : List String) :
    Nat → String → Nat → Option String
  | 0, _, _ => none
  | fuel + 1, fileName, iteration =>
    let fileName :=
      if iteration > 0 then genFileName publisher idStr version iteration else fileName
    if fileName ∈ outDir then
      updateFileName publisher idStr version outDir fuel fileName (iteration + 1)
    else
      some fileName

/-- `ManifestData.createOutputFilePath(outputPath)`: returns the canonical
file name.  `outputPath` and the directory contents `outDir` are accepted
because the source consults them, but only inside the fire-and-forget
`fs.exists` probe (`updateFileName`), which cannot affect this result. -/
def createOutputFilePath (publisher idStr version : String)
    (outputPath : String) (outDir : List String) : String :=
  let _ := outputPath
  let _ := outDir
  canonicalFileName publisher idStr version

/-!
### GalleryFlagsEditor (vsixeditor.ts lines 57-101)
-/

/-- `String.prototype.split(" ")` on the character list: split at every
single space character (adjacent separators produce empty pieces). -/
def splitSpaceAux : List Char → List Char → List (List Char)
  | [], acc => [acc]
  | c :: cs, acc =>
    if c = ' ' then acc :: splitSpaceAux cs []
    else splitSpaceAux cs (acc ++ [c])

/-- JavaScript `s.split(" ")`. -/
def jsSplitSpace (s : String) : List String :=
  (splitSpaceAux s.data []).map String.mk

/-- The `GalleryFlagsEditor` constructor: if the argument is truthy (a
non-empty string) split it on single spaces and drop empty pieces
(`.filter(f => f != null && f !== "")`; `split` never yields `null`),
otherwise the flag list stays `[]`. -/
def mkFlags (s : String) : List String :=
  if s = "" then [] else (jsSplitSpace s).filter (fun f => f != "")

/-- `Array.prototype.join(" ")`, the body of `GalleryFlagsEditor.toString`. -/
def joinSpace : List String → String
  | [] => ""
  | [f] => f
  | f :: g :: fs => f ++ " " ++ joinSpace (g :: fs)

/-- `GalleryFlagsEditor.addFlag`: push the flag iff `indexOf(flag) < 0`,
i.e. iff it is not already present. -/
def addFlag (flags : List String) (flag : String) : List String :=
  if flag ∈ flags then flags else flags ++ [flag]

/-- `GalleryFlagsEditor.removeFlag`: `indexOf` followed by `splice(index, 1)`
removes exactly the first occurrence, if any. -/
def removeFlag : List String → String → List String
  | [], _ => []
  | f :: fs, flag => if f = flag then fs else f :: removeFlag fs flag

/-!
### VSIXEditor (vsixeditor.ts lines 103-352)

The session object.  Its mutable fields become a state record threaded
through the methods; methods that may `throw` return `Except String`.
-/

/-- The parsed `extension.vsixmanifest` content that `editVsixManifest`
works on: Identity attributes `_Id`, `_Version`, `_Publisher`, plus the
`DisplayName` and `GalleryFlags` metadata elements. -/
structure VsixManifest where
  idStr : String
  version : String
  publisher : String
  displayName : String
  galleryFlags : String
deriving DecidableEq, Repr

/-- The fields of a `VSIXEditor` instance, with their initializers from
lines 104-113 as default values. -/
structure VSIXEditorState where
  inputFile : String
  outputPath : String
  edit : Bool := false
  versionNumber : Option String := none
  idStr : Option String := none
  idTag : Option String := none
  publisher : Option String := none
  extensionName : Option String := none
  extensionVisibility : Option String := none
  extensionPricing : Option String := none
  updateTasksVersion : Bool := true
  updateTasksId : Bool := true
deriving DecidableEq, Repr

/-- The constructor `new VSIXEditor(inputFile, outputPath)`. -/
def initState (inputFile outputPath : String) : VSIXEditorState :=
  { inputFile := inputFile, outputPath := outputPath }

/-- `startEdit`: throws when `edit` is already `true`, otherwise sets it. -/
def startEdit (s : VSIXEditorState) : Except String VSIXEditorState :=
  if s.edit then Except.error "Edit is already started"
  else Except.ok { s with edit := true }

/-- `validateEditMode`: throws when `edit` is `false`. -/
def validateEditMode (s : VSIXEditorState) : Except String Unit :=
  if !s.edit then Except.error "Editing is not started" else Except.ok ()

/-- `editVersion`. -/
def editVersion (s : VSIXEditorState) (version : String) :
    Except String VSIXEditorState :=
  match validateEditMode s with
  | Except.error e => Except.error e
  | Except.ok _ => Except.ok { s with versionNumber := some version }

/-- `editExtensionName`. -/
def editExtensionName (s : VSIXEditorState) (name : String) :
    Except String VSIXEditorState :=
  match validateEditMode s with
  | Except.error e => Except.error e
  | Except.ok _ => Except.ok { s with extensionName := some name }

/-- `editExtensionVisibility`. -/
def editExtensionVisibility (s : VSIXEditorState) (visibility : String) :
    Except String VSIXEditorState :=
  match validateEditMode s with
  | Except.error e => Except.error e
  | Except.ok _ => Except.ok { s with extensionVisibility := some visibility }

/-- `editExtensionPricing`. -/
def editExtensionPricing (s : VSIXEditorState) (pricing : String) :
    Except String VSIXEditorState :=
  match validateEditMode s with
  | Except.error e => Except.error e
  | Except.ok _ => Except.ok { s with extensionPricing := some pricing }

/-- `editId`. -/
def editId (s : VSIXEditorState) (idStr : String) :
    Except String VSIXEditorState :=
  match validateEditMode s with
  | Except.error e => Except.error e
  | Except.ok _ => Except.ok { s with idStr := some idStr }

/-- `editIdTag`. -/
def editIdTag (s : VSIXEditorState) (tag : String) :
    Except String VSIXEditorState :=
  match validateEditMode s with
  | Except.error e => Except.error e
  | Except.ok _ => Except.ok { s with idTag := some tag }

/-- `editPublisher`. -/
def editPublisher (s : VSIXEditorState) (publisher : String) :
    Except String VSIXEditorState :=
  match validateEditMode s with
  | Except.error e => Except.error e
  | Except.ok _ => Except.ok { s with publisher := some publisher }

/-- `editUpdateTasksVersion`. -/
def editUpdateTasksVersion (s : VSIXEditorState) (b : Bool) :
    Except String VSIXEditorState :=
  match validateEditMode s with
  | Except.error e => Except.error e
  | Except.ok _ => Except.ok { s with updateTasksVersion := b }

/-- `editUpdateTasksId`. -/
def editUpdateTasksId (s : VSIXEditorState) (b : Bool) :
    Except String VSIXEditorState :=
  match validateEditMode s with
  | Except.error e => Except.error e
  | Except.ok _ => Except.ok { s with updateTasksId := b }

/-- `hasEdits` (lines 293-302): the truthiness cast of the chained `||`
expression, with the parenthesization of the source. -/
def hasEdits (s : VSIXEditorState) : Bool :=
  (isTruthy s.versionNumber
    || isTruthy s.idStr
    || isTruthy s.idTag
    || isTruthy s.publisher
    || isTruthy s.extensionName
    || truthyAndNotDefault s.extensionVisibility
    || truthyAndNotDefault s.extensionPricing)
  || s.updateTasksId

/-- `if (x) { field = x }` for a nullable pending value: the field is
overwritten only when the pending value is truthy. -/
def applyIfTruthy (pending : Option String) (cur : String) : String :=
  match pending with
  | none => cur
  | some v => if v = "" then cur else v

/-- `if (this.idTag) { identity._Id += this.idTag }`: append when truthy. -/
def appendIfTruthy (pending : Option String) (cur : String) : String :=
  match pending with
  | none => cur
  | some v => if v = "" then cur else cur ++ v

/-- The visibility block of `editVsixManifest` (lines 241-262): build a
`GalleryFlagsEditor` from the current `GalleryFlags`, test the request for
the substrings `"public"` and `"preview"`, add or remove the `Public` and
`Preview` flags accordingly, and serialize. -/
def applyVisibility (visibility : String) (galleryFlags : String) : String :=
  let flags := mkFlags galleryFlags
  let isPublic := strContains visibility "public"
  let isPreview := strContains visibility "preview"
  let flags := if isPublic then addFlag flags "Public" else removeFlag flags "Public"
  let flags := if isPreview then addFlag flags "Preview" else removeFlag flags "Preview"
  joinSpace flags

/-- The pricing block of `editVsixManifest` (lines 263-278): test the
request for the substrings `"free"` and `"paid"`; `"free"` removes the
`Paid` flag, `"paid"` adds it, neither leaves the list untouched. -/
def applyPricing (pricing : String) (galleryFlags : String) : String :=
  let flags := mkFlags galleryFlags
  let isFree := strContains pricing "free"
  let isPaid := strContains pricing "paid"
  let flags := if isFree then removeFlag flags "Paid" else flags
  let flags := if isPaid then addFlag flags "Paid" else flags
  joinSpace flags

/-- The pure content of `editVsixManifest` (lines 225-291): the patched
manifest.  Version, Id, Publisher, DisplayName are overwritten when the
pending value is truthy; the idTag is appended to the (possibly replaced)
Id; the visibility block runs when the pending visibility is truthy and
not `"default"`, then the pricing block reads the visibility block's
output.  (Reading and writing the file and XML (de)serialization are the
surrounding I/O, modelled in `endEdit`'s effect list.) -/
def patchManifest (s : VSIXEditorState) (m : VsixManifest) : VsixManifest :=
  let version := applyIfTruthy s.versionNumber m.version
  let idStr := appendIfTruthy s.idTag (applyIfTruthy s.idStr m.idStr)
  let publisher := applyIfTruthy s.publisher m.publisher
  let displayName := applyIfTruthy s.extensionName m.displayName
  let flags :=
    if truthyAndNotDefault s.extensionVisibility then
      applyVisibility (s.extensionVisibility.getD "") m.galleryFlags
    else m.galleryFlags
  let flags :=
    if truthyAndNotDefault s.extensionPricing then
      applyPricing (s.extensionPricing.getD "") flags
    else flags
  { idStr := idStr, version := version, publisher := publisher,
    displayName := displayName, galleryFlags := flags }

/-- The observable side effects of `endEdit`, in invocation order:
`temp.track()`, `temp.mkdir`, the archive extraction, the external
`common.checkUpdateTasksManifests` capability, the manifest file write
inside `editVsixManifest`, the `tl.cp` inside `createArchive`, and the
archive compression. -/
inductive Effect where
  | tempTrack : Effect
  | mkdirTemp : String → Effect
  | extract : String → String → Effect
  | updateTasksManifests : String → Effect
  | writeManifest : String → Effect
  | copy : String → String → Effect
  | compress : String → String → Effect
deriving DecidableEq, Repr

/-- `endEdit` (lines 197-223), with its I/O reified: `dirPath` is the name
the `temp.mkdir("vsixeditor")` allocation would return, `m` is the parsed
content of the extracted `extension.vsixmanifest`, and `outDir` lists the
file names present in the output directory (consulted only by the
fire-and-forget probe).  The result is the returned path, the ordered
effect list, and the session state, which the method never mutates (no
field of `this` is assigned anywhere in lines 197-223).  Failures of the
external extraction / compression tools are out of scope here; the
working-directory discipline around them is modelled separately by
`extractArchiveCwd` / `createArchiveCwd`. -/
def endEdit (s : VSIXEditorState) (dirPath : String) (m : VsixManifest)
    (outDir : List String) :
    Except String (String × List Effect × VSIXEditorState) :=
  match validateEditMode s with
  | Except.error e => Except.error e
  | Except.ok _ =>
    if !hasEdits s then Except.ok (s.inputFile, [], s)
    else
      let patched := patchManifest s m
      let outName := createOutputFilePath patched.publisher patched.idStr
        patched.version s.outputPath outDir
      Except.ok (outName,
        [Effect.tempTrack, Effect.mkdirTemp dirPath,
         Effect.extract s.inputFile dirPath]
        ++ (if isTruthy s.versionNumber && s.updateTasksVersion || s.updateTasksId
            then [Effect.updateTasksManifests (dirPath ++ "/extension.vsomanifest")]
            else [])
        ++ [Effect.writeManifest (dirPath ++ "/extension.vsixmanifest")]
        ++ (if s.inputFile != outName then [Effect.copy s.inputFile outName] else [])
        ++ [Effect.compress dirPath outName],
        s)

/-- `true` iff the call did not throw. -/
def exceptOk {α : Type} : Except String α → Bool
  | Except.ok _ => true
  | Except.error _ => false

/-!
### Working-directory discipline of the archive helpers (lines 126-195)

Each helper begins with `const cwd = tl.cwd()` and ends with `tl.cd(cwd)`.
There is no `try`/`finally`, so when a statement in between throws, the
trailing `tl.cd(cwd)` does not run.  The spec treats a failing archive-tool
invocation as a thrown, fatal error, so `execFails` selects that outcome
of `zip.execSync()`.  The ambient state is the process working directory
(a string); each function returns the thrown-or-ok outcome together with
the working directory at exit.
-/

/-- `extractArchive` (lines 126-162): neither platform branch changes the
working directory before `execSync`; on success `tl.cd(cwd)` restores the
(unchanged) directory, on a thrown tool failure the restore is skipped but
the directory was never moved. -/
def extractArchiveCwd (isWindows : Bool) (execFails : Bool) (cwd0 : String) :
    Except String Unit × String :=
  let cwd := cwd0
  let _ := isWindows
  if execFails then (Except.error "extract tool failed", cwd0)
  else (Except.ok (), cwd)

/-- `createArchive` (lines 164-195): the Windows branch never changes the
working directory; the non-Windows branch runs `tl.cd(tmpPath)` before
`zip.execSync()`, and the restoring `tl.cd(cwd)` runs only when `execSync`
did not throw. -/
def createArchiveCwd (isWindows : Bool) (execFails : Bool) (tmpPath : String)
    (cwd0 : String) : Except String Unit × String :=
  let cwd := cwd0
  if isWindows then
    if execFails then (Except.error "compress tool failed", cwd0)
    else (Except.ok (), cwd)
  else
    let afterCd := tmpPath
    if execFails then (Except.error "compress tool failed", afterCd)
    else (Except.ok (), cwd)

/-!
### States and manifests used by concrete witnesses
-/

/-- A sample parsed manifest. -/
def sampleManifest : VsixManifest :=
  { idStr := "x", version := "1.0", publisher := "p", displayName := "n",
    galleryFlags := "" }

/-- A started session with no recorded edits and `updateTasksId := false`. -/
def noopState : VSIXEditorState :=
  { initState "input.vsix" "outdir" with edit := true, updateTasksId := false }

/-- A started session with all defaults (in particular `updateTasksId = true`). -/
def startedState : VSIXEditorState :=
  { initState "in.vsix" "od" with edit := true }

/-- A started session with `updateTasksVersion := false` and the default
`updateTasksId = true`. -/
def startedNoTaskVersionState : VSIXEditorState :=
  { initState "in.vsix" "od" with edit := true, updateTasksVersion := false }

/-- The value `endEdit startedNoTaskVersionState "/t" sampleManifest []`
returns under `Except.ok`. -/
def startedNoTaskVersionResult : String × List Effect × VSIXEditorState :=
  ("p.x-1.0.gen.vsix",
   [Effect.tempTrack, Effect.mkdirTemp "/t", Effect.extract "in.vsix" "/t",
    Effect.updateTasksManifests "/t/extension.vsomanifest",
    Effect.writeManifest "/t/extension.vsixmanifest",
    Effect.copy "in.vsix" "p.x-1.0.gen.vsix",
    Effect.compress "/t" "p.x-1.0.gen.vsix"],
   startedNoTaskVersionState)

/-!
### Helper lemmas about strings and the flag list operations
-/

theorem string_mk_data (s : String) : String.mk s.data = s := rfl

theorem space_data : (" " : String).data = [' '] := rfl

theorem splitSpaceAux_no_space : ∀ (tok acc : List Char), ' ' ∉ tok →
    splitSpaceAux tok acc = [acc ++ tok]
  | [], acc, _ => by simp [splitSpaceAux]
  | c :: cs, acc, h => by
    have hc : ¬(c = ' ') := fun hc => h (hc ▸ List.mem_cons_self c cs)
    have hcs : ' ' ∉ cs := fun hm => h (List.mem_cons_of_mem c hm)
    simp only [splitSpaceAux, if_neg hc]
    rw [splitSpaceAux_no_space cs (acc ++ [c]) hcs]
    simp

theorem splitSpaceAux_append_space : ∀ (tok rest acc : List Char), ' ' ∉ tok →
    splitSpaceAux (tok ++ ' ' :: rest) acc = (acc ++ tok) :: splitSpaceAux rest []
  | [], rest, acc, _ => by simp [splitSpaceAux]
  | c :: cs, rest, acc, h => by
    have hc : ¬(c = ' ') := fun hc => h (hc ▸ List.mem_cons_self c cs)
    have hcs : ' ' ∉ cs := fun hm => h (List.mem_cons_of_mem c hm)
    simp only [List.cons_append, splitSpaceAux, if_neg hc, List.append_eq]
    rw [splitSpaceAux_append_space cs rest (acc ++ [c]) hcs]
    simp

theorem splitSpaceAux_tokens_no_space : ∀ (l acc : List Char), ' ' ∉ acc →
    ∀ t ∈ splitSpaceAux l acc, ' ' ∉ t
  | [], acc, hacc => by
    intro t ht
    simp only [splitSpaceAux, List.mem_singleton] at ht
    exact ht ▸ hacc
  | c :: cs, acc, hacc => by
    intro t ht
    by_cases hc : c = ' '
    · simp only [splitSpaceAux, if_pos hc] at ht
      rcases List.mem_cons.mp ht with h1 | h2
      · exact h1 ▸ hacc
      · exact splitSpaceAux_tokens_no_space cs [] (List.not_mem_nil _) t h2
    · simp only [splitSpaceAux, if_neg hc] at ht
      refine splitSpaceAux_tokens_no_space cs (acc ++ [c]) ?_ t ht
      intro hm
      rcases List.mem_append.mp hm with h1 | h2
      · exact hacc h1
      · exact hc (List.mem_singleton.mp h2).symm

theorem mkFlags_wf (s : String) : ∀ t ∈ mkFlags s, t ≠ "" ∧ ' ' ∉ t.data := by
  intro t ht
  unfold mkFlags at ht
  by_cases hs : s = ""
  · rw [if_pos hs] at ht
    exact absurd ht (List.not_mem_nil t)
  · rw [if_neg hs] at ht
    have ht2 := List.mem_of_mem_filter ht
    have hne := List.of_mem_filter ht
    refine ⟨by simpa using hne, ?_⟩
    unfold jsSplitSpace at ht2
    rcases List.mem_map.mp ht2 with ⟨l, hl, rfl⟩
    have hns := splitSpaceAux_tokens_no_space s.data [] (List.not_mem_nil _) l hl
    simpa using hns

theorem mkFlags_joinSpace : ∀ (tokens : List String),
    (∀ t ∈ tokens, t ≠ "" ∧ ' ' ∉ t.data) → mkFlags (joinSpace tokens) = tokens
  | [], _ => rfl
  | [f], h => by
    have hf := h f (List.mem_singleton_self f)
    show mkFlags f = [f]
    unfold mkFlags
    rw [if_neg hf.1]
    unfold jsSplitSpace
    rw [splitSpaceAux_no_space f.data [] hf.2]
    simp [string_mk_data, hf.1]
  | f :: g :: gs, h => by
    have hf := h f (List.mem_cons_self f (g :: gs))
    have hrest : ∀ t ∈ g :: gs, t ≠ "" ∧ ' ' ∉ t.data :=
      fun t ht => h t (List.mem_cons_of_mem f ht)
    have ih := mkFlags_joinSpace (g :: gs) hrest
    show mkFlags (f ++ " " ++ joinSpace (g :: gs)) = f :: g :: gs
    have hdata : (f ++ " " ++ joinSpace (g :: gs)).data
        = f.data ++ ' ' :: (joinSpace (g :: gs)).data := by
      rw [String.data_append, String.data_append, space_data]
      simp
    have hne : (f ++ " " ++ joinSpace (g :: gs)) ≠ "" := by
      intro hcontra
      have hd : (f ++ " " ++ joinSpace (g :: gs)).data = [] := by rw [hcontra]
      rw [hdata] at hd
      simp at hd
    have hrne : joinSpace (g :: gs) ≠ "" := by
      intro hc
      rw [hc] at ih
      simp [mkFlags] at ih
    have htail : ((splitSpaceAux (joinSpace (g :: gs)).data []).map String.mk).filter
        (fun t => t != "") = g :: gs := by
      have h2 := ih
      unfold mkFlags at h2
      rw [if_neg hrne] at h2
      unfold jsSplitSpace at h2
      exact h2
    unfold mkFlags
    rw [if_neg hne]
    unfold jsSplitSpace
    rw [hdata, splitSpaceAux_append_space f.data _ [] hf.2]
    simp only [List.nil_append, List.map_cons, string_mk_data, List.filter_cons]
    have hfb : (f != "") = true := by simpa using hf.1
    rw [hfb]
    simp only [if_true]
    rw [htail]

theorem addFlag_of_mem {flags : List String} {flag : String} (h : flag ∈ flags) :
    addFlag flags flag = flags := by
  simp [addFlag, h]

theorem removeFlag_of_not_mem : ∀ {flags : List String} {flag : String},
    flag ∉ flags → removeFlag flags flag = flags
  | [], _, _ => rfl
  | f :: fs, flag, h => by
    have hne : ¬(f = flag) := fun he => h (he ▸ List.mem_cons_self f fs)
    simp only [removeFlag, if_neg hne]
    rw [removeFlag_of_not_mem (fun hm => h (List.mem_cons_of_mem f hm))]

theorem removeFlag_sublist : ∀ (flags : List String) (flag : String),
    List.Sublist (removeFlag flags flag) flags
  | [], _ => List.Sublist.refl []
  | f :: fs, flag => by
    by_cases he : f = flag
    · simp only [removeFlag, if_pos he]
      exact (List.Sublist.refl fs).cons f
    · simp only [removeFlag, if_neg he]
      exact (removeFlag_sublist fs flag).cons₂ f

theorem mem_addFlag_iff {flags : List String} {flag t : String} :
    t ∈ addFlag flags flag ↔ t ∈ flags ∨ t = flag := by
  unfold addFlag
  by_cases h : flag ∈ flags
  · rw [if_pos h]
    constructor
    · exact Or.inl
    · rintro (ht | rfl)
      · exact ht
      · exact h
  · rw [if_neg h]
    simp [List.mem_append]

theorem mem_removeFlag_of_ne : ∀ {flags : List String} {flag t : String}, t ≠ flag →
    (t ∈ removeFlag flags flag ↔ t ∈ flags)
  | [], _, t, _ => by simp [removeFlag]
  | f :: fs, flag, t, hne => by
    by_cases he : f = flag
    · simp only [removeFlag, if_pos he, List.mem_cons]
      constructor
      · exact Or.inr
      · rintro (rfl | h2)
        · exact absurd he hne
        · exact h2
    · simp only [removeFlag, if_neg he, List.mem_cons]
      exact or_congr Iff.rfl (mem_removeFlag_of_ne hne)

theorem not_mem_removeFlag_self : ∀ {flags : List String}, flags.Nodup →
    ∀ {flag : String}, flag ∉ removeFlag flags flag
  | [], _, flag => by simp [removeFlag]
  | f :: fs, hnd, flag => by
    rcases List.nodup_cons.mp hnd with ⟨hf, hfs⟩
    by_cases he : f = flag
    · simp only [removeFlag, if_pos he]
      exact he ▸ hf
    · simp only [removeFlag, if_neg he]
      intro hm
      rcases List.mem_cons.mp hm with h1 | h2
      · exact he h1.symm
      · exact not_mem_removeFlag_self hfs h2

theorem filter_addFlag (p : String → Bool) {flags : List String} {flag : String}
    (hp : p flag = false) : (addFlag flags flag).filter p = flags.filter p := by
  unfold addFlag
  by_cases h : flag ∈ flags
  · rw [if_pos h]
  · rw [if_neg h, List.filter_append]
    simp [hp]

theorem filter_removeFlag (p : String → Bool) : ∀ (flags : List String) {flag : String},
    p flag = false → (removeFlag flags flag).filter p = flags.filter p
  | [], _, _ => rfl
  | f :: fs, flag, hp => by
    by_cases he : f = flag
    · simp only [removeFlag, if_pos he, List.filter_cons]
      rw [he, hp]
      simp
    · simp only [removeFlag, if_neg he, List.filter_cons]
      rw [filter_removeFlag p fs hp]

theorem addFlag_wf {flags : List String} {flag : String}
    (h : ∀ t ∈ flags, t ≠ "" ∧ ' ' ∉ t.data) (hf : flag ≠ "" ∧ ' ' ∉ flag.data) :
    ∀ t ∈ addFlag flags flag, t ≠ "" ∧ ' ' ∉ t.data := by
  intro t ht
  rcases mem_addFlag_iff.mp ht with h1 | rfl
  · exact h t h1
  · exact hf

theorem removeFlag_wf {flags : List String} {flag : String}
    (h : ∀ t ∈ flags, t ≠ "" ∧ ' ' ∉ t.data) :
    ∀ t ∈ removeFlag flags flag, t ≠ "" ∧ ' ' ∉ t.data :=
  fun t ht => h t ((removeFlag_sublist flags flag).subset ht)

theorem addFlag_nodup {flags : List String} {flag : String} (h : flags.Nodup) :
    (addFlag flags flag).Nodup := by
  unfold addFlag
  by_cases hm : flag ∈ flags
  · rwa [if_pos hm]
  · rw [if_neg hm]
    simp [List.nodup_append, h, hm]

theorem removeFlag_nodup {flags : List String} {flag : String} (h : flags.Nodup) :
    (removeFlag flags flag).Nodup :=
  List.Nodup.sublist (removeFlag_sublist flags flag) h

theorem mkFlags_applyVisibility (v g : String) :
    mkFlags (applyVisibility v g) =
      (if strContains v "preview"
        then addFlag (if strContains v "public" then addFlag (mkFlags g) "Public"
                      else removeFlag (mkFlags g) "Public") "Preview"
        else removeFlag (if strContains v "public" then addFlag (mkFlags g) "Public"
                      else removeFlag (mkFlags g) "Public") "Preview") := by
  have hwf1 : ∀ t ∈ (if strContains v "public" then addFlag (mkFlags g) "Public"
      else removeFlag (mkFlags g) "Public"), t ≠ "" ∧ ' ' ∉ t.data := by
    by_cases hp : strContains v "public" = true
    · simpa [hp] using addFlag_wf (mkFlags_wf g) (by decide)
    · simpa [hp] using removeFlag_wf (mkFlags_wf g)
  have hwf2 : ∀ t ∈ (if strContains v "preview"
        then addFlag (if strContains v "public" then addFlag (mkFlags g) "Public"
                      else removeFlag (mkFlags g) "Public") "Preview"
        else removeFlag (if strContains v "public" then addFlag (mkFlags g) "Public"
                      else removeFlag (mkFlags g) "Public") "Preview"),
      t ≠ "" ∧ ' ' ∉ t.data := by
    by_cases hq : strContains v "preview" = true
    · simpa [hq] using addFlag_wf hwf1 (by decide)
    · simpa [hq] using removeFlag_wf hwf1
  exact mkFlags_joinSpace _ hwf2

theorem mkFlags_applyPricing (p g : String) :
    mkFlags (applyPricing p g) =
      (if strContains p "paid"
        then addFlag (if strContains p "free" then removeFlag (mkFlags g) "Paid"
                      else mkFlags g) "Paid"
        else (if strContains p "free" then removeFlag (mkFlags g) "Paid"
                      else mkFlags g)) := by
  have hwf1 : ∀ t ∈ (if strContains p "free" then removeFlag (mkFlags g) "Paid"
      else mkFlags g), t ≠ "" ∧ ' ' ∉ t.data := by
    by_cases hf : strContains p "free" = true
    · simpa [hf] using removeFlag_wf (mkFlags_wf g)
    · simpa [hf] using mkFlags_wf g
  have hwf2 : ∀ t ∈ (if strContains p "paid"
        then addFlag (if strContains p "free" then removeFlag (mkFlags g) "Paid"
                      else mkFlags g) "Paid"
        else (if strContains p "free" then removeFlag (mkFlags g) "Paid"
                      else mkFlags g)), t ≠ "" ∧ ' ' ∉ t.data := by
    by_cases hq : strContains p "paid" = true
    · simpa [hq] using addFlag_wf hwf1 (by decide)
    · simpa [hq] using hwf1
  exact mkFlags_joinSpace _ hwf2

/-!
### Claim theorems
-/

/-- C1 counterexample: with `Acme.Tool-1.0.0.gen.vsix` already present in the
output directory, `createOutputFilePath` still returns the canonical name,
not the claimed `Acme.Tool-1.0.0.gen01.vsix`. -/
theorem createOutputFilePath_collision_cex :
    createOutputFilePath "Acme" "Tool" "1.0.0" "out" ["Acme.Tool-1.0.0.gen.vsix"]
        = "Acme.Tool-1.0.0.gen.vsix"
    ∧ ("Acme.Tool-1.0.0.gen.vsix" : String) ≠ "Acme.Tool-1.0.0.gen01.vsix" := by
  exact ⟨rfl, by decide⟩

/-- C1 (amended): `createOutputFilePath` returns the canonical name
`{publisher}.{id}-{version}.gen.vsix` for every output-directory state; the
generation-suffix probe (`updateFileName`) is asynchronous and
fire-and-forget, so it only determines the logged name - shown here to walk
the spec's `gen01`, `gen02` sequence - and never the returned one. -/
theorem createOutputFilePath_always_canonical :
    (∀ (publisher idStr version outputPath : String) (outDir : List String),
      createOutputFilePath publisher idStr version outputPath outDir
        = canonicalFileName publisher idStr version)
    ∧ updateFileName "Acme" "Tool" "1.0.0" ["Acme.Tool-1.0.0.gen.vsix"] 3
        (canonicalFileName "Acme" "Tool" "1.0.0") 0 = some "Acme.Tool-1.0.0.gen01.vsix"
    ∧ updateFileName "Acme" "Tool" "1.0.0"
        ["Acme.Tool-1.0.0.gen.vsix", "Acme.Tool-1.0.0.gen01.vsix"] 3
        (canonicalFileName "Acme" "Tool" "1.0.0") 0 = some "Acme.Tool-1.0.0.gen02.vsix" := by
  refine ⟨fun _ _ _ _ _ => rfl, by decide, by decide⟩

/-- C4: `hasEdits` is true iff at least one of version, id, idTag, publisher
or extensionName is set (truthy), or visibility / pricing is set and not
`"default"`, or `updateTasksId` is true; it never depends on
`updateTasksVersion`, and on a fresh session with `updateTasksId := false`
it is false. -/
theorem hasEdits_truth_table (s : VSIXEditorState) :
    (hasEdits s = true ↔
      (isTruthy s.versionNumber = true ∨ isTruthy s.idStr = true
        ∨ isTruthy s.idTag = true ∨ isTruthy s.publisher = true
        ∨ isTruthy s.extensionName = true
        ∨ truthyAndNotDefault s.extensionVisibility = true
        ∨ truthyAndNotDefault s.extensionPricing = true
        ∨ s.updateTasksId = true))
    ∧ (∀ b : Bool, hasEdits { s with updateTasksVersion := b } = hasEdits s)
    ∧ (∀ inputFile outputPath : String,
        hasEdits { initState inputFile outputPath with updateTasksId := false } = false) := by
  refine ⟨?_, fun b => rfl, fun i o => rfl⟩
  simp [hasEdits, Bool.or_eq_true, or_assoc]

/-- C5 counterexample: on the non-Windows branch of `createArchive`, when the
compression tool invocation throws, the ambient working directory is left at
the scratch directory instead of being restored to its pre-invocation value. -/
theorem createArchive_cwd_not_restored_cex :
    (createArchiveCwd false true "/tmp/scratch" "/work").2 = "/tmp/scratch"
    ∧ ("/tmp/scratch" : String) ≠ "/work"
    ∧ exceptOk (createArchiveCwd false true "/tmp/scratch" "/work").1 = false := by
  exact ⟨rfl, by decide, rfl⟩

/-- C5 (amended): `extractArchive` never moves the working directory, so it
is at its pre-invocation value on every exit path; `createArchive` restores
it on the Windows branch and on the successful non-Windows branch, but a
failing tool invocation on the non-Windows branch leaves it at the scratch
directory. -/
theorem archive_cwd_discipline :
    (∀ (isWindows execFails : Bool) (cwd0 : String),
      (extractArchiveCwd isWindows execFails cwd0).2 = cwd0)
    ∧ (∀ (execFails : Bool) (tmpPath cwd0 : String),
        (createArchiveCwd true execFails tmpPath cwd0).2 = cwd0)
    ∧ (∀ (tmpPath cwd0 : String),
        (createArchiveCwd false false tmpPath cwd0).2 = cwd0)
    ∧ (∀ (tmpPath cwd0 : String),
        (createArchiveCwd false true tmpPath cwd0).2 = tmpPath) := by
  refine ⟨fun w f c => ?_, fun f t c => ?_, fun t c => rfl, fun t c => rfl⟩
  · cases f <;> rfl
  · cases f <;> rfl

/-- C10: recording the empty string for version, id, idTag, publisher or
displayName is indistinguishable from never recording that field: the field
counts as unset in `hasEdits`, and `patchManifest` leaves the corresponding
manifest value unchanged. -/
theorem empty_string_edit_noop (s : VSIXEditorState) (m : VsixManifest) :
    (hasEdits { s with versionNumber := some "" } = hasEdits { s with versionNumber := none }
      ∧ patchManifest { s with versionNumber := some "" } m
          = patchManifest { s with versionNumber := none } m)
    ∧ (hasEdits { s with idStr := some "" } = hasEdits { s with idStr := none }
      ∧ patchManifest { s with idStr := some "" } m
          = patchManifest { s with idStr := none } m)
    ∧ (hasEdits { s with idTag := some "" } = hasEdits { s with idTag := none }
      ∧ patchManifest { s with idTag := some "" } m
          = patchManifest { s with idTag := none } m)
    ∧ (hasEdits { s with publisher := some "" } = hasEdits { s with publisher := none }
      ∧ patchManifest { s with publisher := some "" } m
          = patchManifest { s with publisher := none } m)
    ∧ (hasEdits { s with extensionName := some "" } = hasEdits { s with extensionName := none }
      ∧ patchManifest { s with extensionName := some "" } m
          = patchManifest { s with extensionName := none } m) := by
  refine ⟨⟨?_, ?_⟩, ⟨?_, ?_⟩, ⟨?_, ?_⟩, ⟨?_, ?_⟩, ⟨?_, ?_⟩⟩ <;>
    simp [hasEdits, patchManifest, isTruthy, applyIfTruthy, appendIfTruthy]

/-- C3: for a started session whose `hasEdits` conditions are all
absent/false (in particular `updateTasksId = false`), `endEdit` returns the
original input archive path with an empty effect list: no `temp.track`, no
temp directory, no extraction, no nested-manifest update, no manifest write,
no copy and no archive compression. -/
theorem endEdit_noop_fast_path (s : VSIXEditorState) (dirPath : String)
    (m : VsixManifest) (outDir : List String)
    (hstart : s.edit = true)
    (h1 : isTruthy s.versionNumber = false) (h2 : isTruthy s.idStr = false)
    (h3 : isTruthy s.idTag = false) (h4 : isTruthy s.publisher = false)
    (h5 : isTruthy s.extensionName = false)
    (h6 : truthyAndNotDefault s.extensionVisibility = false)
    (h7 : truthyAndNotDefault s.extensionPricing = false)
    (h8 : s.updateTasksId = false) :
    endEdit s dirPath m outDir = Except.ok (s.inputFile, [], s) := by
  have hE : hasEdits s = false := by
    simp [hasEdits, h1, h2, h3, h4, h5, h6, h7, h8]
  simp [endEdit, validateEditMode, hstart, hE]

/-- Witness for C3 at a concrete no-edit session. -/
theorem endEdit_noop_fast_path_witness :
    endEdit noopState "/tmp/vsixeditor" sampleManifest []
      = Except.ok (noopState.inputFile, [], noopState) :=
  endEdit_noop_fast_path noopState "/tmp/vsixeditor" sampleManifest []
    rfl rfl rfl rfl rfl rfl rfl rfl rfl

/-- C8: during a full `endEdit` run, the external nested-task-manifest
update (`common.checkUpdateTasksManifests`) is invoked iff a version edit is
pending and `updateTasksVersion` is true, or `updateTasksId` is true - the
source's `this.versionNumber && this.updateTasksVersion || this.updateTasksId`
with `&&` binding tighter than `||`. -/
theorem endEdit_tasks_update_gate (s : VSIXEditorState) (dirPath : String)
    (m : VsixManifest) (outDir : List String)
    (r : String × List Effect × VSIXEditorState)
    (hstart : s.edit = true) (hedits : hasEdits s = true)
    (hok : endEdit s dirPath m outDir = Except.ok r) :
    (Effect.updateTasksManifests (dirPath ++ "/extension.vsomanifest") ∈ r.2.1
      ↔ (isTruthy s.versionNumber && s.updateTasksVersion || s.updateTasksId) = true) := by
  have hv : validateEditMode s = Except.ok () := by
    simp [validateEditMode, hstart]
  simp only [endEdit, hv, hedits, Bool.not_true, Bool.false_eq_true, if_false,
    Except.ok.injEq] at hok
  subst hok
  cases hc : (isTruthy s.versionNumber && s.updateTasksVersion || s.updateTasksId) <;>
    cases hcopy : (s.inputFile != createOutputFilePath (patchManifest s m).publisher
      (patchManifest s m).idStr (patchManifest s m).version s.outputPath outDir) <;>
    simp [hc, hcopy]

/-- Witness for C8: `updateTasksId = true` alone (with
`updateTasksVersion = false` and no version edit) triggers the nested
update. -/
theorem endEdit_tasks_update_gate_witness :
    Effect.updateTasksManifests ("/t" ++ "/extension.vsomanifest")
        ∈ startedNoTaskVersionResult.2.1
      ↔ (isTruthy startedNoTaskVersionState.versionNumber
          && startedNoTaskVersionState.updateTasksVersion
          || startedNoTaskVersionState.updateTasksId) = true :=
  endEdit_tasks_update_gate startedNoTaskVersionState "/t" sampleManifest []
    startedNoTaskVersionResult rfl rfl rfl

/-- C2 (amended): every edit method and `endEdit` fail with the
invalid-state error before `startEdit`, and a second `startEdit` fails; but
`endEdit` performs no state transition - it leaves every session field
unchanged, so a second `endEdit` after a completed one passes
`validateEditMode` and is accepted again (the session is not single-use). -/
theorem session_state_guard (s : VSIXEditorState) :
    (s.edit = false →
      (∀ v, editVersion s v = Except.error "Editing is not started")
      ∧ (∀ v, editExtensionName s v = Except.error "Editing is not started")
      ∧ (∀ v, editExtensionVisibility s v = Except.error "Editing is not started")
      ∧ (∀ v, editExtensionPricing s v = Except.error "Editing is not started")
      ∧ (∀ v, editId s v = Except.error "Editing is not started")
      ∧ (∀ v, editIdTag s v = Except.error "Editing is not started")
      ∧ (∀ v, editPublisher s v = Except.error "Editing is not started")
      ∧ (∀ b, editUpdateTasksVersion s b = Except.error "Editing is not started")
      ∧ (∀ b, editUpdateTasksId s b = Except.error "Editing is not started")
      ∧ (∀ d m od, endEdit s d m od = Except.error "Editing is not started"))
    ∧ (s.edit = true → startEdit s = Except.error "Edit is already started")
    ∧ (∀ d m od r, endEdit s d m od = Except.ok r →
        r.2.2 = s ∧ exceptOk (endEdit r.2.2 d m od) = true) := by
  refine ⟨?_, ?_, ?_⟩
  · intro h
    have hv : validateEditMode s = Except.error "Editing is not started" := by
      simp [validateEditMode, h]
    exact ⟨fun v => by simp [editVersion, hv],
      fun v => by simp [editExtensionName, hv],
      fun v => by simp [editExtensionVisibility, hv],
      fun v => by simp [editExtensionPricing, hv],
      fun v => by simp [editId, hv],
      fun v => by simp [editIdTag, hv],
      fun v => by simp [editPublisher, hv],
      fun b => by simp [editUpdateTasksVersion, hv],
      fun b => by simp [editUpdateTasksId, hv],
      fun d m od => by simp [endEdit, hv]⟩
  · intro h
    simp [startEdit, h]
  · intro d m od r hok
    by_cases ht : s.edit = true
    · have hv : validateEditMode s = Except.ok () := by
        simp [validateEditMode, ht]
      have hstate : r.2.2 = s := by
        simp only [endEdit, hv] at hok
        by_cases hE : hasEdits s = true
        · simp only [hE, Bool.not_true, Bool.false_eq_true, if_false,
            Except.ok.injEq] at hok
          subst hok
          rfl
        · have hEf : hasEdits s = false := by
            cases hEE : hasEdits s
            · rfl
            · exact absurd hEE hE
          simp only [hEf, Bool.not_false, if_true, Except.ok.injEq] at hok
          subst hok
          rfl
      refine ⟨hstate, ?_⟩
      rw [hstate]
      cases hE : hasEdits s <;> simp [endEdit, hv, hE, exceptOk]
    · have hf : s.edit = false := by
        cases hse : s.edit
        · rfl
        · exact absurd hse ht
      have : endEdit s d m od = Except.error "Editing is not started" := by
        simp [endEdit, validateEditMode, hf]
      rw [this] at hok
      cases hok

/-- Witness for C2's amended theorem at concrete sessions: an edit before
start and a second start both fail, and a completed `endEdit` leaves the
session state unchanged with a second `endEdit` accepted. -/
theorem session_state_guard_witness :
    editVersion (initState "a.vsix" "o") "1.0.0" = Except.error "Editing is not started"
    ∧ startEdit startedState = Except.error "Edit is already started"
    ∧ ((("p.x-1.0.gen.vsix",
         [Effect.tempTrack, Effect.mkdirTemp "/t", Effect.extract "in.vsix" "/t",
          Effect.updateTasksManifests "/t/extension.vsomanifest",
          Effect.writeManifest "/t/extension.vsixmanifest",
          Effect.copy "in.vsix" "p.x-1.0.gen.vsix",
          Effect.compress "/t" "p.x-1.0.gen.vsix"],
         startedState) : String × List Effect × VSIXEditorState).2.2 = startedState
        ∧ exceptOk (endEdit (("p.x-1.0.gen.vsix",
            [Effect.tempTrack, Effect.mkdirTemp "/t", Effect.extract "in.vsix" "/t",
             Effect.updateTasksManifests "/t/extension.vsomanifest",
             Effect.writeManifest "/t/extension.vsixmanifest",
             Effect.copy "in.vsix" "p.x-1.0.gen.vsix",
             Effect.compress "/t" "p.x-1.0.gen.vsix"],
            startedState) : String × List Effect × VSIXEditorState).2.2
            "/t" sampleManifest []) = true) :=
  ⟨((session_state_guard (initState "a.vsix" "o")).1 rfl).1 "1.0.0",
   (session_state_guard startedState).2.1 rfl,
   (session_state_guard startedState).2.2 "/t" sampleManifest [] _ rfl⟩

/-- C2 counterexample: after a completed `endEdit` on a started session, a
second `endEdit` on the resulting session state is accepted (returns
`Except.ok` again) instead of failing - `endEdit` never finalizes the
session. -/
theorem endEdit_second_call_accepted_cex :
    exceptOk (endEdit startedState "/t" sampleManifest []) = true
    ∧ (match endEdit startedState "/t" sampleManifest [] with
        | Except.ok r => exceptOk (endEdit r.2.2 "/t" sampleManifest [])
        | Except.error _ => false) = true := by
  exact ⟨rfl, rfl⟩

/-- C6: for a pending visibility request (set, not `"default"`) and any
starting GalleryFlags value (whose token list, per the data model, has no
duplicate token), the rewritten flag list contains `Public` iff the request
contains the substring `"public"` and `Preview` iff it contains
`"preview"`; all other tokens are untouched.  Examples: `"Paid"` with
request `"private"` stays `"Paid"`, and `""` with `"publicpreview"` becomes
`"Public Preview"` in that order. -/
theorem visibility_policy (v g : String)
    (hset : v ≠ "") (hdef : v ≠ "default") (hnd : (mkFlags g).Nodup) :
    ("Public" ∈ mkFlags (applyVisibility v g) ↔ strContains v "public" = true)
    ∧ ("Preview" ∈ mkFlags (applyVisibility v g) ↔ strContains v "preview" = true)
    ∧ (mkFlags (applyVisibility v g)).filter (fun t => !(t == "Public") && !(t == "Preview"))
        = (mkFlags g).filter (fun t => !(t == "Public") && !(t == "Preview"))
    ∧ applyVisibility "private" "Paid" = "Paid"
    ∧ applyVisibility "publicpreview" "" = "Public Preview" := by
  have _ := hset
  have _ := hdef
  have heq := mkFlags_applyVisibility v g
  have nePubPrev : ("Public" : String) ≠ "Preview" := by decide
  have hnd1 : (if strContains v "public" then addFlag (mkFlags g) "Public"
      else removeFlag (mkFlags g) "Public").Nodup := by
    by_cases hp : strContains v "public" = true
    · simpa [hp] using addFlag_nodup hnd
    · simpa [hp] using removeFlag_nodup hnd
  refine ⟨?_, ?_, ?_, by decide, by decide⟩
  · rw [heq]
    by_cases hp : strContains v "public" = true <;>
      by_cases hq : strContains v "preview" = true
    · simp [hp, hq, mem_addFlag_iff]
    · simp only [hp, hq, if_true, Bool.false_eq_true, if_false]
      rw [mem_removeFlag_of_ne nePubPrev]
      simp [hp, mem_addFlag_iff]
    · simp [hp, hq, mem_addFlag_iff, nePubPrev,
        not_mem_removeFlag_self hnd]
    · simp only [hp, hq, Bool.false_eq_true, if_false]
      rw [mem_removeFlag_of_ne nePubPrev]
      simp [hp, not_mem_removeFlag_self hnd]
  · rw [heq]
    by_cases hq : strContains v "preview" = true
    · simp [hq, mem_addFlag_iff]
    · simp [hq, not_mem_removeFlag_self hnd1]
  · have hP : (fun t => !(t == "Public") && !(t == "Preview")) ("Public" : String)
        = false := by decide
    have hPrev : (fun t => !(t == "Public") && !(t == "Preview")) ("Preview" : String)
        = false := by decide
    rw [heq]
    by_cases hp : strContains v "public" = true <;>
      by_cases hq : strContains v "preview" = true
    · simp only [hp, hq, if_true]
      rw [filter_addFlag _ hPrev, filter_addFlag _ hP]
    · simp only [hp, hq, if_true, Bool.false_eq_true, if_false]
      rw [filter_removeFlag _ _ hPrev, filter_addFlag _ hP]
    · simp only [hp, hq, if_true, Bool.false_eq_true, if_false]
      rw [filter_addFlag _ hPrev, filter_removeFlag _ _ hP]
    · simp only [hp, hq, Bool.false_eq_true, if_false]
      rw [filter_removeFlag _ _ hPrev, filter_removeFlag _ _ hP]

/-- Witness for C6 at request `"public"` over starting flags `"Paid Preview"`. -/
theorem visibility_policy_witness :
    ("Public" ∈ mkFlags (applyVisibility "public" "Paid Preview")
      ↔ strContains "public" "public" = true)
    ∧ ("Preview" ∈ mkFlags (applyVisibility "public" "Paid Preview")
      ↔ strContains "public" "preview" = true)
    ∧ (mkFlags (applyVisibility "public" "Paid Preview")).filter
        (fun t => !(t == "Public") && !(t == "Preview"))
        = (mkFlags "Paid Preview").filter (fun t => !(t == "Public") && !(t == "Preview"))
    ∧ applyVisibility "private" "Paid" = "Paid"
    ∧ applyVisibility "publicpreview" "" = "Public Preview" :=
  visibility_policy "public" "Paid Preview" (by decide) (by decide) (by decide)

/-- C7: for a pending pricing request (set, not `"default"`) and any
starting GalleryFlags value (duplicate-free token list per the data model):
a request containing `"free"` (and not `"paid"`) leaves `Paid` absent; a
request containing `"paid"` leaves `Paid` present; a request containing
neither leaves the flag list untouched; non-`Paid` tokens are never
touched.  Examples: `"Public Paid"` with `"free"` gives `"Public"`, and
`"Public"` with `"paid"` gives `"Public Paid"`. -/
theorem pricing_policy (p g : String)
    (hset : p ≠ "") (hdef : p ≠ "default") (hnd : (mkFlags g).Nodup) :
    (strContains p "free" = true → strContains p "paid" = false →
      "Paid" ∉ mkFlags (applyPricing p g))
    ∧ (strContains p "paid" = true → "Paid" ∈ mkFlags (applyPricing p g))
    ∧ (strContains p "free" = false → strContains p "paid" = false →
      mkFlags (applyPricing p g) = mkFlags g)
    ∧ (mkFlags (applyPricing p g)).filter (fun t => !(t == "Paid"))
        = (mkFlags g).filter (fun t => !(t == "Paid"))
    ∧ applyPricing "free" "Public Paid" = "Public"
    ∧ applyPricing "paid" "Public" = "Public Paid" := by
  have _ := hset
  have _ := hdef
  have heq := mkFlags_applyPricing p g
  refine ⟨?_, ?_, ?_, ?_, by decide, by decide⟩
  · intro hf hq
    rw [heq]
    simp [hf, hq, not_mem_removeFlag_self hnd]
  · intro hq
    rw [heq]
    simp [hq, mem_addFlag_iff]
  · intro hf hq
    rw [heq]
    simp [hf, hq]
  · have hP : (fun t => !(t == "Paid")) ("Paid" : String) = false := by decide
    rw [heq]
    by_cases hf : strContains p "free" = true <;>
      by_cases hq : strContains p "paid" = true
    · simp only [hf, hq, if_true]
      rw [filter_addFlag _ hP, filter_removeFlag _ _ hP]
    · simp only [hf, hq, if_true, Bool.false_eq_true, if_false]
      rw [filter_removeFlag _ _ hP]
    · simp only [hf, hq, if_true, Bool.false_eq_true, if_false]
      rw [filter_addFlag _ hP]
    · simp only [hf, hq, Bool.false_eq_true, if_false]

/-- Witness for C7 at request `"free"` over starting flags `"Public Paid"`. -/
theorem pricing_policy_witness :
    (strContains "free" "free" = true → strContains "free" "paid" = false →
      "Paid" ∉ mkFlags (applyPricing "free" "Public Paid"))
    ∧ (strContains "free" "paid" = true →
      "Paid" ∈ mkFlags (applyPricing "free" "Public Paid"))
    ∧ (strContains "free" "free" = false → strContains "free" "paid" = false →
      mkFlags (applyPricing "free" "Public Paid") = mkFlags "Public Paid")
    ∧ (mkFlags (applyPricing "free" "Public Paid")).filter (fun t => !(t == "Paid"))
        = (mkFlags "Public Paid").filter (fun t => !(t == "Paid"))
    ∧ applyPricing "free" "Public Paid" = "Public"
    ∧ applyPricing "paid" "Public" = "Public Paid" :=
  pricing_policy "free" "Public Paid" (by decide) (by decide) (by decide)

/-- C9: `addFlag` on a present token and `removeFlag` on an absent token
leave the flag list unchanged, and serializing the editor constructed from
a well-formed space-delimited duplicate-free token string returns that
string (stated over the token list: `joinSpace tokens` ranges over exactly
the well-formed inputs). -/
theorem galleryFlags_algebra :
    (∀ (flags : List String) (flag : String), flag ∈ flags →
      addFlag flags flag = flags)
    ∧ (∀ (flags : List String) (flag : String), flag ∉ flags →
      removeFlag flags flag = flags)
    ∧ (∀ (tokens : List String), (∀ t ∈ tokens, t ≠ "" ∧ ' ' ∉ t.data) →
      tokens.Nodup →
      joinSpace (mkFlags (joinSpace tokens)) = joinSpace tokens) := by
  refine ⟨fun flags flag h => addFlag_of_mem h,
    fun flags flag h => removeFlag_of_not_mem h,
    fun tokens hwf _ => by rw [mkFlags_joinSpace tokens hwf]⟩

/-- Witness for C9 at concrete flag lists and the token list
`["Public", "Paid"]`. -/
theorem galleryFlags_algebra_witness :
    addFlag ["Public"] "Public" = ["Public"]
    ∧ removeFlag ["Public"] "Paid" = ["Public"]
    ∧ joinSpace (mkFlags (joinSpace ["Public", "Paid"])) = joinSpace ["Public", "Paid"] :=
  ⟨galleryFlags_algebra.1 ["Public"] "Public" (by decide),
   galleryFlags_algebra.2.1 ["Public"] "Paid" (by decide),
   galleryFlags_algebra.2.2 ["Public", "Paid"] (by decide) (by decide)⟩
